import Mathlib

/-!
Verification of the Bitcoin dashboard aggregator in
`src/src/components/BitcoinStats.tsx`.

The file contains three revisions of the `BitcoinStats` component.  The
claims concern the multi-source `Promise.allSettled` revision (the second
one in the file) and, for the sequential-dependency and timestamp claims,
also the sequential `await` revision (the third one).  We embed:

  * the pure helper functions (`formatBytes`, `getFearGreedColor`,
    `getBlockReward`, `getPriceContext`, `calculateMVRV`) as Lean
    functions over exact arithmetic (`ℚ` for JavaScript numbers, `Nat.log`
    for the exact value of `Math.floor(Math.log b / Math.log 1024)`);
  * the component state (the `useState` cells) as a structure, and one
    invocation of `fetchBitcoinData` as a function from an environment
    describing the upstream responses (per source, `none` models any
    failure caught by that source's catch handler: network error,
    non-2xx status rejected by a check, or a body that fails to parse)
    to the new state together with the list of emitted events (HTTP
    requests issued and `setLastUpdated` calls).
-/

/-- Parsed body of `mempool.space/api/block/{hash}` (interface `BlockData`).
In the allSettled revision both `hash` and `id` are optional. -/
structure BlockData where
  height : ℕ
  hash : Option String
  id : Option String
  time : ℕ
  timestamp : ℕ
  tx_count : ℕ
  size : ℕ
  weight : ℕ
  difficulty : ℚ
  merkle_root : String
  nonce : ℕ
  version : ℕ
deriving DecidableEq

/-- Parsed body of `mempool.space/api/mempool` (interface `MemPoolStats`). -/
structure MemPoolStats where
  count : ℕ
  vsize : ℕ
  total_fee : ℕ
deriving DecidableEq

/-- The `bitcoin` object inside the CoinGecko price response. -/
structure BitcoinUsd where
  usd : ℚ
  usd_24h_change : ℚ
deriving DecidableEq

/-- Parsed CoinGecko price response (interface `BitcoinPrice`). -/
structure BitcoinPrice where
  bitcoin : BitcoinUsd
deriving DecidableEq

/-- One entry of the alternative.me Fear & Greed response. -/
structure FearGreedEntry where
  value : String
  value_classification : String
  timestamp : String
  time_until_update : String
deriving DecidableEq

/-- Parsed alternative.me response (interface `FearGreedData`). -/
structure FearGreedData where
  data : List FearGreedEntry
deriving DecidableEq

/-- Parsed bitcoin-data.com MVRV response (interface `MvrvData`). -/
structure MvrvData where
  d : String
  unixTs : String
  mvrv : String
deriving DecidableEq

/-- Parsed blockchain.info stats response (interface `BlockchainStats`). -/
structure BlockchainStats where
  market_price_usd : ℚ
  hash_rate : ℚ
  total_fees_btc : ℚ
  estimated_transaction_volume_usd : ℚ
  difficulty : ℚ
  totalbc : ℕ
  n_tx : ℕ
deriving DecidableEq

/-! ### Pure helper functions -/

/-- JavaScript `Math.round` on a non-negative value: round half up. -/
def jsRound (x : ℚ) : ℤ := ⌊x + 1 / 2⌋

/-- The unit table `['Bytes', 'KB', 'MB', 'GB']` of `formatBytes`. -/
def sizes : List String := ["Bytes", "KB", "MB", "GB"]

/-- Result of rendering `formatBytes`: either the literal string
`'0 Bytes'`, or the template `` `${value} ${unit}` `` with the rounded
scaled value and the unit name (JavaScript renders the out-of-table
access `sizes[i]` for `i ≥ 4` as the string `"undefined"`). -/
inductive BytesRendering where
  | zeroBytes
  | scaled (value : ℚ) (unit : String)
deriving DecidableEq

/-- `formatBytes` from the source:
`if (bytes === 0) return '0 Bytes';`
`const i = Math.floor(Math.log(bytes) / Math.log(1024));`
`return Math.round(bytes / Math.pow(1024, i) * 100) / 100 + ' ' + sizes[i];`
with the exact value `Nat.log 1024 bytes` for the floored logarithm. -/
def formatBytes (bytes : ℕ) : BytesRendering :=
  if bytes = 0 then BytesRendering.zeroBytes
  else
    let i := Nat.log 1024 bytes
    BytesRendering.scaled (((jsRound ((bytes : ℚ) / 1024 ^ i * 100) : ℤ) : ℚ) / 100)
      (sizes.getD i "undefined")

/-- `getFearGreedColor` from the source: five color tiers with
breakpoints at 20/40/60/80 (the index value is `parseInt` of a string,
hence an integer). -/
def getFearGreedColor (value : ℤ) : String :=
  if value ≤ 20 then "text-red-600"
  else if value ≤ 40 then "text-orange-500"
  else if value ≤ 60 then "text-yellow-500"
  else if value ≤ 80 then "text-green-500"
  else "text-green-600"

/-- `getBlockReward` from the source:
`const halvings = Math.floor(blockHeight / halvingInterval);`
`return initialReward / Math.pow(2, halvings);`
(`Nat` division is JavaScript `Math.floor` division on non-negative
integers). -/
def getBlockReward (blockHeight : ℕ) : ℚ :=
  let halvingInterval := 210000
  let halvings := blockHeight / halvingInterval
  let initialReward : ℚ := 50
  initialReward / 2 ^ halvings

/-- The record `{ label, color, bgColor }` returned by `getPriceContext`. -/
structure PriceContext where
  label : String
  color : String
  bgColor : String
deriving DecidableEq

/-- `getPriceContext` from the source: six qualitative price tiers with
breakpoints at 100000/80000/50000/30000/20000 USD. -/
def getPriceContext (price : ℚ) : PriceContext :=
  if price > 100000 then
    ⟨"Near ATH", "text-orange-600", "bg-orange-100 dark:bg-orange-900/20"⟩
  else if price > 80000 then
    ⟨"Very High", "text-green-600", "bg-green-100 dark:bg-green-900/20"⟩
  else if price > 50000 then
    ⟨"High", "text-green-500", "bg-green-100 dark:bg-green-900/20"⟩
  else if price > 30000 then
    ⟨"Normal", "text-blue-600", "bg-blue-100 dark:bg-blue-900/20"⟩
  else if price > 20000 then
    ⟨"Low", "text-yellow-600", "bg-yellow-100 dark:bg-yellow-900/20"⟩
  else
    ⟨"Very Low", "text-red-600", "bg-red-100 dark:bg-red-900/20"⟩

/-- Digits of a decimal string to a natural number (helper for
`parseDecimal`). -/
def digitsToNat (l : List Char) : ℕ :=
  l.foldl (fun acc c => acc * 10 + (c.toNat - 48)) 0

/-- JavaScript `parseFloat` restricted to well-formed non-negative
decimal literals (`"3"`, `"2.31"`); inputs outside this shape are not
exercised by any claim. -/
def parseDecimal (s : String) : ℚ :=
  match s.splitOn "." with
  | [w] => (digitsToNat w.toList : ℚ)
  | [w, f] => (digitsToNat w.toList : ℚ) + (digitsToNat f.toList : ℚ) / 10 ^ f.length
  | _ => 0

/-! ### Requests and events -/

/-- The HTTP GET requests `fetchBitcoinData` can issue, identified by
endpoint; `Request.url` recovers the exact URL string of the source. -/
inductive Request where
  | tipHash
  | blockDetails (hash : String)
  | mempool
  | price
  | fng
  | stats
deriving DecidableEq

/-- The URL string each request is issued with in the source. -/
def Request.url : Request → String
  | Request.tipHash => "https://mempool.space/api/blocks/tip/hash"
  | Request.blockDetails h => "https://mempool.space/api/block/" ++ h
  | Request.mempool => "https://mempool.space/api/mempool"
  | Request.price =>
      "https://api.coingecko.com/api/v3/simple/price?ids=bitcoin&vs_currencies=usd&include_24hr_change=true"
  | Request.fng => "https://api.alternative.me/fng/"
  | Request.stats => "https://api.blockchain.info/stats"

/-- Observable events of one `fetchBitcoinData` invocation: a request
being issued, or `setLastUpdated(new Date())` with the current time. -/
inductive Event where
  | req (r : Request)
  | setLastUpdated (t : ℕ)
deriving DecidableEq

/-- The hashes for which a block-details request
(`mempool.space/api/block/{hash}`) occurs in a trace. -/
def blockDetailsHashes (tr : List Event) : List String :=
  tr.filterMap fun e =>
    match e with
    | Event.req (Request.blockDetails h) => some h
    | _ => none

/-- How many times `setLastUpdated` is called in a trace. -/
def setLastUpdatedCount (tr : List Event) : ℕ :=
  tr.countP fun e =>
    match e with
    | Event.setLastUpdated _ => true
    | _ => false

namespace AllSettled

/-- The `useState` cells of the `Promise.allSettled` revision of the
component (`lastUpdated` as a unix time instead of a `Date` object). -/
structure AggState where
  blockData : Option BlockData
  memPoolStats : Option MemPoolStats
  bitcoinPrice : Option BitcoinPrice
  fearGreedIndex : Option FearGreedData
  blockchainStats : Option BlockchainStats
  mvrvData : Option MvrvData
  loading : Bool
  lastUpdated : Option ℕ
deriving DecidableEq

/-- Initial component state: every snapshot `useState(null)`,
`loading` starts `true`, no timestamp. -/
def initialState : AggState :=
  { blockData := none
    memPoolStats := none
    bitcoinPrice := none
    fearGreedIndex := none
    blockchainStats := none
    mvrvData := none
    loading := true
    lastUpdated := none }

/-- Upstream behaviour for one refresh: per source, `none` models any
failure routed to that source's catch handler (network error, non-2xx
status where checked, malformed body); `some` carries the parsed
payload.  `blockDetails` maps the chain-tip hash body to the outcome of
the dependent `api/block/{hash}` fetch.  `now` is the value of
`new Date()` at batch completion. -/
structure Env where
  tipHash : Option String
  blockDetails : String → Option BlockData
  mempool : Option MemPoolStats
  price : Option BitcoinPrice
  fng : Option FearGreedData
  stats : Option BlockchainStats
  now : ℕ

/-- The first promise of the batch:
`fetch('https://mempool.space/api/blocks/tip/hash').then(r => r.text())`
`.then(hash => fetch(backtick-api/block/hash)).then(r => r.json())`
`.then(data => setBlockData(data)).catch(warn)` — on tip failure the
dependent fetch is never issued; on any failure the state is unchanged. -/
def runBlock (env : Env) (s : AggState) : AggState × List Event :=
  match env.tipHash with
  | none => (s, [Event.req Request.tipHash])
  | some h =>
    match env.blockDetails h with
    | none => (s, [Event.req Request.tipHash, Event.req (Request.blockDetails h)])
    | some d =>
        ({ s with blockData := some d },
         [Event.req Request.tipHash, Event.req (Request.blockDetails h)])

/-- The mempool promise: on success `setMemPoolStats(data)`, the catch
handler only logs. -/
def runMempool (env : Env) (s : AggState) : AggState × List Event :=
  match env.mempool with
  | none => (s, [Event.req Request.mempool])
  | some d => ({ s with memPoolStats := some d }, [Event.req Request.mempool])

/-- The CoinGecko price promise: on success `setBitcoinPrice(data)`;
its catch handler calls `setBitcoinPrice(null)` (the non-2xx check
throws into the same handler). -/
def runPrice (env : Env) (s : AggState) : AggState × List Event :=
  match env.price with
  | none => ({ s with bitcoinPrice := none }, [Event.req Request.price])
  | some d => ({ s with bitcoinPrice := some d }, [Event.req Request.price])

/-- The Fear & Greed promise: on success `setFearGreedIndex(data)`, the
catch handler only logs. -/
def runFng (env : Env) (s : AggState) : AggState × List Event :=
  match env.fng with
  | none => (s, [Event.req Request.fng])
  | some d => ({ s with fearGreedIndex := some d }, [Event.req Request.fng])

/-- The blockchain.info stats promise: on success
`setBlockchainStats(data)`, the catch handler only logs. -/
def runStats (env : Env) (s : AggState) : AggState × List Event :=
  match env.stats with
  | none => (s, [Event.req Request.stats])
  | some d => ({ s with blockchainStats := some d }, [Event.req Request.stats])

/-- One invocation of the allSettled revision's `fetchBitcoinData`:
`setLoading(true)`, the five independent promises (the MVRV fetch is
commented out), `await Promise.allSettled(promises)`, then
`setLastUpdated(new Date())` and finally `setLoading(false)`.  The
per-source runs are linearised in array order; they write disjoint
state cells.  The function is total: `Promise.allSettled` never
rejects, so the invocation always completes. -/
def fetchBitcoinData (env : Env) (s : AggState) : AggState × List Event :=
  let s0 := { s with loading := true }
  let p1 := runBlock env s0
  let p2 := runMempool env p1.1
  let p3 := runPrice env p2.1
  let p4 := runFng env p3.1
  let p5 := runStats env p4.1
  ({ p5.1 with lastUpdated := some env.now, loading := false },
   p1.2 ++ p2.2 ++ p3.2 ++ p4.2 ++ p5.2 ++ [Event.setLastUpdated env.now])

/-- `calculateMVRV` from the source:
`return mvrvData ? parseFloat(mvrvData.mvrv) : null;`. -/
def calculateMVRV (s : AggState) : Option ℚ :=
  match s.mvrvData with
  | some m => some (parseDecimal m.mvrv)
  | none => none

/-- Success of the two-step block source: the tip fetch delivered a
hash and the dependent details fetch delivered a parsed body. -/
def blockOk (env : Env) : Bool :=
  match env.tipHash with
  | none => false
  | some h => (env.blockDetails h).isSome

/-- Success of the mempool source. -/
def mempoolOk (env : Env) : Bool := env.mempool.isSome

/-- Success of the price source. -/
def priceOk (env : Env) : Bool := env.price.isSome

/-- Success of the Fear & Greed source. -/
def fngOk (env : Env) : Bool := env.fng.isSome

/-- Success of the blockchain.info stats source. -/
def statsOk (env : Env) : Bool := env.stats.isSome

/-- Number of the five configured sources that fail in `env`. -/
def failedCount (env : Env) : ℕ :=
  (if blockOk env then 0 else 1) + (if mempoolOk env then 0 else 1) +
    (if priceOk env then 0 else 1) + (if fngOk env then 0 else 1) +
    (if statsOk env then 0 else 1)

/-- All five sources succeed. -/
def allOk (env : Env) : Bool :=
  blockOk env && mempoolOk env && priceOk env && fngOk env && statsOk env

/-- States reachable from mount by repeated refreshes (initial call and
timer ticks), under arbitrary upstream behaviour each time. -/
inductive Reachable : AggState → Prop where
  | init : Reachable initialState
  | step (env : Env) {s : AggState} : Reachable s → Reachable (fetchBitcoinData env s).1

end AllSettled

namespace Sequential

/-- The `useState` cells of the sequential-`await` revision. -/
structure SeqState where
  blockData : Option BlockData
  memPoolStats : Option MemPoolStats
  bitcoinPrice : Option BitcoinPrice
  loading : Bool
  lastUpdated : Option ℕ
deriving DecidableEq

/-- Upstream behaviour for one refresh of the sequential revision
(block chain-tip hash, dependent block details, mempool, price). -/
structure Env where
  tipHash : Option String
  blockDetails : String → Option BlockData
  mempool : Option MemPoolStats
  price : Option BitcoinPrice
  now : ℕ

/-- All four fetches of the sequential revision succeed. -/
def seqAllOk (env : Env) : Bool :=
  match env.tipHash with
  | none => false
  | some h => (env.blockDetails h).isSome && env.mempool.isSome && env.price.isSome

/-- One invocation of the sequential revision's `fetchBitcoinData`: the
four fetches are awaited one after the other inside one `try` block; a
failure at any point jumps to `catch` (which only shows a toast), so
later fetches are not issued and none of the `set...` calls (which all
sit after the last `await`, `setLastUpdated` included) run; `finally`
does `setLoading(false)`. -/
def fetchBitcoinData (env : Env) (s : SeqState) : SeqState × List Event :=
  let s0 := { s with loading := true }
  match env.tipHash with
  | none => ({ s0 with loading := false }, [Event.req Request.tipHash])
  | some h =>
    match env.blockDetails h with
    | none =>
        ({ s0 with loading := false },
         [Event.req Request.tipHash, Event.req (Request.blockDetails h)])
    | some bd =>
      match env.mempool with
      | none =>
          ({ s0 with loading := false },
           [Event.req Request.tipHash, Event.req (Request.blockDetails h),
            Event.req Request.mempool])
      | some mp =>
        match env.price with
        | none =>
            ({ s0 with loading := false },
             [Event.req Request.tipHash, Event.req (Request.blockDetails h),
              Event.req Request.mempool, Event.req Request.price])
        | some pr =>
            ({ s0 with
                blockData := some bd
                memPoolStats := some mp
                bitcoinPrice := some pr
                lastUpdated := some env.now
                loading := false },
             [Event.req Request.tipHash, Event.req (Request.blockDetails h),
              Event.req Request.mempool, Event.req Request.price,
              Event.setLastUpdated env.now])

end Sequential

/-! ### Characterization lemmas for one refresh -/

namespace AllSettled

/-- The state after one allSettled refresh, field by field: each
snapshot either takes the freshly parsed payload or keeps its previous
value — except `bitcoinPrice`, which mirrors the upstream outcome
(cleared by its catch handler on failure); `mvrvData` is untouched;
the timestamp is set unconditionally. -/
theorem fetch_spec (env : Env) (s : AggState) :
    (fetchBitcoinData env s).1 =
      { blockData :=
          match env.tipHash.bind env.blockDetails with
          | some d => some d
          | none => s.blockData
        memPoolStats :=
          match env.mempool with
          | some d => some d
          | none => s.memPoolStats
        bitcoinPrice := env.price
        fearGreedIndex :=
          match env.fng with
          | some d => some d
          | none => s.fearGreedIndex
        blockchainStats :=
          match env.stats with
          | some d => some d
          | none => s.blockchainStats
        mvrvData := s.mvrvData
        loading := false
        lastUpdated := some env.now } := by
  obtain ⟨tip, details, mp, pr, fg, st, now⟩ := env
  cases tip with
  | none => cases mp <;> cases pr <;> cases fg <;> cases st <;> rfl
  | some h =>
      cases hd : details h <;> cases mp <;> cases pr <;> cases fg <;> cases st <;>
        simp [fetchBitcoinData, runBlock, runMempool, runPrice, runFng, runStats, hd]

/-- The block source fails exactly when the two-step chain delivers no
parsed body. -/
theorem blockOk_false_iff (env : Env) :
    blockOk env = false ↔ env.tipHash.bind env.blockDetails = none := by
  unfold blockOk
  cases env.tipHash with
  | none => simp
  | some h => cases hd : env.blockDetails h <;> simp [hd]

/-- The mempool source fails exactly when no payload arrives. -/
theorem mempoolOk_false_iff (env : Env) :
    mempoolOk env = false ↔ env.mempool = none := by
  unfold mempoolOk
  cases env.mempool <;> simp

/-- The price source fails exactly when no payload arrives. -/
theorem priceOk_false_iff (env : Env) :
    priceOk env = false ↔ env.price = none := by
  unfold priceOk
  cases env.price <;> simp

/-- The Fear & Greed source fails exactly when no payload arrives. -/
theorem fngOk_false_iff (env : Env) :
    fngOk env = false ↔ env.fng = none := by
  unfold fngOk
  cases env.fng <;> simp

/-- The stats source fails exactly when no payload arrives. -/
theorem statsOk_false_iff (env : Env) :
    statsOk env = false ↔ env.stats = none := by
  unfold statsOk
  cases env.stats <;> simp

end AllSettled

/-! ### Sample payloads and concrete scenarios -/

/-- A sample parsed block body. -/
def sampleBlock : BlockData :=
  { height := 900000
    hash := some "00000abc"
    id := some "00000abc"
    time := 1700000000
    timestamp := 1700000000
    tx_count := 3000
    size := 1600000
    weight := 3990000
    difficulty := 101646843652721
    merkle_root := "mr"
    nonce := 12345
    version := 536870912 }

/-- A sample parsed mempool body. -/
def sampleMempool : MemPoolStats :=
  { count := 45000, vsize := 32000000, total_fee := 250000000 }

/-- A sample parsed CoinGecko price body. -/
def samplePrice : BitcoinPrice := ⟨⟨60000, -2⟩⟩

/-- A sample parsed Fear & Greed body. -/
def sampleFng : FearGreedData :=
  ⟨[⟨"45", "Fear", "1700000000", "3600"⟩]⟩

/-- A sample parsed blockchain.info stats body. -/
def sampleStats : BlockchainStats :=
  { market_price_usd := 60000
    hash_rate := 600000000
    total_fees_btc := 3
    estimated_transaction_volume_usd := 10000000000
    difficulty := 101646843652721
    totalbc := 1970000000000000
    n_tx := 450000 }

/-! ### Claim theorems -/

/-- Claim C4: `getBlockReward(height)` equals `50 * 2 ^ (-⌊height / 210000⌋)`
for every non-negative integer height, is monotonically non-increasing in
height, and `getBlockReward 0 = 50`, `getBlockReward 210000 = 25`,
`getBlockReward 420000 = 12.5`. -/
theorem C4_getBlockReward_halving_schedule :
    (∀ h : ℕ, getBlockReward h = 50 * (2 : ℚ) ^ (-((h / 210000 : ℕ) : ℤ))) ∧
    (∀ h₁ h₂ : ℕ, h₁ ≤ h₂ → getBlockReward h₂ ≤ getBlockReward h₁) ∧
    getBlockReward 0 = 50 ∧ getBlockReward 210000 = 25 ∧
    getBlockReward 420000 = 12.5 := by
  refine ⟨?_, ?_, ?_, ?_, ?_⟩
  · intro h
    show (50 : ℚ) / 2 ^ (h / 210000) = _
    rw [zpow_neg, zpow_natCast, div_eq_mul_inv]
  · intro h₁ h₂ hle
    simp only [getBlockReward]
    gcongr <;> first | exact Nat.div_le_div_right hle | norm_num
  · norm_num [getBlockReward]
  · norm_num [getBlockReward]
  · norm_num [getBlockReward]

/-- Witness for C4: the monotonicity clause applied across the second
halving boundary. -/
theorem C4_witness :
    (210000 : ℕ) ≤ 420000 ∧ getBlockReward 420000 ≤ getBlockReward 210000 :=
  ⟨by norm_num, C4_getBlockReward_halving_schedule.2.1 210000 420000 (by norm_num)⟩

/-- Claim C6: `getFearGreedColor` is total on sentiment values in
`[0, 100]`, always landing in the five-tier color scale with breakpoints
20/40/60/80; value 15 gets the red tier, value 45 the yellow boundary
tier, value 100 the top dark-green tier. -/
theorem C6_getFearGreedColor_tiers :
    (∀ v : ℤ, 0 ≤ v → v ≤ 100 →
      getFearGreedColor v ∈
        ["text-red-600", "text-orange-500", "text-yellow-500",
         "text-green-500", "text-green-600"]) ∧
    getFearGreedColor 15 = "text-red-600" ∧
    getFearGreedColor 45 = "text-yellow-500" ∧
    getFearGreedColor 100 = "text-green-600" := by
  refine ⟨?_, by decide, by decide, by decide⟩
  intro v _ _
  unfold getFearGreedColor
  split_ifs <;> decide

/-- Witness for C6: the totality clause applied at the in-range value 45. -/
theorem C6_witness :
    (0 : ℤ) ≤ 45 ∧ (45 : ℤ) ≤ 100 ∧
      getFearGreedColor 45 ∈
        ["text-red-600", "text-orange-500", "text-yellow-500",
         "text-green-500", "text-green-600"] :=
  ⟨by decide, by decide, C6_getFearGreedColor_tiers.1 45 (by decide) (by decide)⟩

/-- Claim C7: `getPriceContext` maps every USD price to one of six
qualitative labels via the breakpoints 100000/80000/50000/30000/20000;
150000 gets "Near ATH", 45000 gets "Normal", 5000 gets "Very Low". -/
theorem C7_getPriceContext_tiers :
    (∀ p : ℚ, (getPriceContext p).label ∈
      ["Near ATH", "Very High", "High", "Normal", "Low", "Very Low"]) ∧
    (getPriceContext 150000).label = "Near ATH" ∧
    (getPriceContext 45000).label = "Normal" ∧
    (getPriceContext 5000).label = "Very Low" := by
  refine ⟨?_, by decide, by decide, by decide⟩
  intro p
  unfold getPriceContext
  split_ifs <;> decide

/-- Claim C10: in the allSettled revision the MVRV fetch is commented
out, so `mvrvData` is `none` in every reachable state and
`calculateMVRV` always returns `null`. -/
theorem C10_mvrv_permanently_unavailable :
    ∀ s : AllSettled.AggState, AllSettled.Reachable s →
      s.mvrvData = none ∧ AllSettled.calculateMVRV s = none := by
  have key : ∀ s : AllSettled.AggState, AllSettled.Reachable s → s.mvrvData = none := by
    intro s hs
    induction hs with
    | init => rfl
    | step env hr ih => rw [AllSettled.fetch_spec]; exact ih
  intro s hs
  refine ⟨key s hs, ?_⟩
  unfold AllSettled.calculateMVRV
  rw [key s hs]

/-- Witness for C10: applied to the initial (mount) state. -/
theorem C10_witness :
    AllSettled.initialState.mvrvData = none ∧
      AllSettled.calculateMVRV AllSettled.initialState = none :=
  C10_mvrv_permanently_unavailable AllSettled.initialState AllSettled.Reachable.init

/-- Scenario for C1: of the five configured sources, the price and the
Fear & Greed fetches fail, the other three succeed. -/
def envC1 : AllSettled.Env :=
  { tipHash := some "00000abc"
    blockDetails := fun _ => some sampleBlock
    mempool := some sampleMempool
    price := none
    fng := none
    stats := some sampleStats
    now := 7 }

/-- Prior state for C1: a price snapshot from an earlier successful
refresh is present. -/
def stateC1 : AllSettled.AggState :=
  { AllSettled.initialState with bitcoinPrice := some samplePrice }

/-- Counterexample to C1 as stated: in a refresh where exactly 2 of the
5 sources fail (price and Fear & Greed) and 3 succeed, the failing
price source does not retain its prior snapshot — its catch handler
`setBitcoinPrice(null)` clears it. -/
theorem C1_counterexample :
    AllSettled.failedCount envC1 = 2 ∧
    stateC1.bitcoinPrice = some samplePrice ∧
    ((AllSettled.fetchBitcoinData envC1 stateC1).1).bitcoinPrice = none ∧
    ((AllSettled.fetchBitcoinData envC1 stateC1).1).bitcoinPrice ≠ stateC1.bitcoinPrice := by
  refine ⟨by decide, rfl, rfl, by decide⟩

/-- Amended C1: with 5 configured sources of which any 2 fail and 3
succeed, the refresh completes (the transition function is total) with
every succeeding source's snapshot updated to the freshly parsed
response; a failing source retains its prior snapshot, except the
bitcoin price source, whose snapshot is cleared to absent on failure. -/
theorem C1_partial_failure_amended :
    ∀ (env : AllSettled.Env) (s : AllSettled.AggState),
      AllSettled.failedCount env = 2 →
      (∀ h d, env.tipHash = some h → env.blockDetails h = some d →
        ((AllSettled.fetchBitcoinData env s).1).blockData = some d) ∧
      (∀ d, env.mempool = some d →
        ((AllSettled.fetchBitcoinData env s).1).memPoolStats = some d) ∧
      (∀ d, env.price = some d →
        ((AllSettled.fetchBitcoinData env s).1).bitcoinPrice = some d) ∧
      (∀ d, env.fng = some d →
        ((AllSettled.fetchBitcoinData env s).1).fearGreedIndex = some d) ∧
      (∀ d, env.stats = some d →
        ((AllSettled.fetchBitcoinData env s).1).blockchainStats = some d) ∧
      (AllSettled.blockOk env = false →
        ((AllSettled.fetchBitcoinData env s).1).blockData = s.blockData) ∧
      (AllSettled.mempoolOk env = false →
        ((AllSettled.fetchBitcoinData env s).1).memPoolStats = s.memPoolStats) ∧
      (AllSettled.priceOk env = false →
        ((AllSettled.fetchBitcoinData env s).1).bitcoinPrice = none) ∧
      (AllSettled.fngOk env = false →
        ((AllSettled.fetchBitcoinData env s).1).fearGreedIndex = s.fearGreedIndex) ∧
      (AllSettled.statsOk env = false →
        ((AllSettled.fetchBitcoinData env s).1).blockchainStats = s.blockchainStats) := by
  intro env s _
  rw [AllSettled.fetch_spec]
  refine ⟨?_, ?_, ?_, ?_, ?_, ?_, ?_, ?_, ?_, ?_⟩
  · intro h d h1 h2; simp [h1, h2]
  · intro d h1; simp [h1]
  · intro d h1; simp [h1]
  · intro d h1; simp [h1]
  · intro d h1; simp [h1]
  · intro hf; rw [AllSettled.blockOk_false_iff] at hf; simp [hf]
  · intro hf; rw [AllSettled.mempoolOk_false_iff] at hf; simp [hf]
  · intro hf; rw [AllSettled.priceOk_false_iff] at hf; simp [hf]
  · intro hf; rw [AllSettled.fngOk_false_iff] at hf; simp [hf]
  · intro hf; rw [AllSettled.statsOk_false_iff] at hf; simp [hf]

/-- Witness for the amended C1, in the concrete 2-fail/3-succeed
scenario `envC1`: the succeeding mempool source is updated and the
failing Fear & Greed source keeps its prior (absent) snapshot. -/
theorem C1_witness :
    ((AllSettled.fetchBitcoinData envC1 stateC1).1).memPoolStats = some sampleMempool ∧
    ((AllSettled.fetchBitcoinData envC1 stateC1).1).fearGreedIndex = stateC1.fearGreedIndex :=
  ⟨(C1_partial_failure_amended envC1 stateC1 (by decide)).2.1 sampleMempool rfl,
   (C1_partial_failure_amended envC1 stateC1 (by decide)).2.2.2.2.2.2.2.2.1 (by decide)⟩

/-- Scenario for C2: only the price source fails. -/
def envC2 : AllSettled.Env :=
  { tipHash := some "00000abc"
    blockDetails := fun _ => some sampleBlock
    mempool := some sampleMempool
    price := none
    fng := some sampleFng
    stats := some sampleStats
    now := 9 }

/-- Prior state for C2: a price snapshot is present. -/
def stateC2 : AllSettled.AggState :=
  { AllSettled.initialState with bitcoinPrice := some samplePrice }

/-- Counterexample to C2 as stated: a failed price fetch does not leave
the price snapshot at its previous value — it clears it. -/
theorem C2_counterexample :
    AllSettled.priceOk envC2 = false ∧
    stateC2.bitcoinPrice = some samplePrice ∧
    ((AllSettled.fetchBitcoinData envC2 stateC2).1).bitcoinPrice = none ∧
    ((AllSettled.fetchBitcoinData envC2 stateC2).1).bitcoinPrice ≠ stateC2.bitcoinPrice := by
  refine ⟨by decide, rfl, rfl, by decide⟩

/-- Amended C2: for every source except the bitcoin price source, any
failure leaves that source's snapshot unchanged (previous value or
absence); the bitcoin price source's snapshot is cleared to absent by
its catch handler on any failure, hence it is retained only when it was
already absent. -/
theorem C2_failure_isolation_amended :
    ∀ (env : AllSettled.Env) (s : AllSettled.AggState),
      (AllSettled.blockOk env = false →
        ((AllSettled.fetchBitcoinData env s).1).blockData = s.blockData) ∧
      (AllSettled.mempoolOk env = false →
        ((AllSettled.fetchBitcoinData env s).1).memPoolStats = s.memPoolStats) ∧
      (AllSettled.fngOk env = false →
        ((AllSettled.fetchBitcoinData env s).1).fearGreedIndex = s.fearGreedIndex) ∧
      (AllSettled.statsOk env = false →
        ((AllSettled.fetchBitcoinData env s).1).blockchainStats = s.blockchainStats) ∧
      (AllSettled.priceOk env = false →
        ((AllSettled.fetchBitcoinData env s).1).bitcoinPrice = none) ∧
      (AllSettled.priceOk env = false → s.bitcoinPrice = none →
        ((AllSettled.fetchBitcoinData env s).1).bitcoinPrice = s.bitcoinPrice) := by
  intro env s
  rw [AllSettled.fetch_spec]
  refine ⟨?_, ?_, ?_, ?_, ?_, ?_⟩
  · intro hf; rw [AllSettled.blockOk_false_iff] at hf; simp [hf]
  · intro hf; rw [AllSettled.mempoolOk_false_iff] at hf; simp [hf]
  · intro hf; rw [AllSettled.fngOk_false_iff] at hf; simp [hf]
  · intro hf; rw [AllSettled.statsOk_false_iff] at hf; simp [hf]
  · intro hf; rw [AllSettled.priceOk_false_iff] at hf; simp [hf]
  · intro hf hs; rw [AllSettled.priceOk_false_iff] at hf; simp [hf, hs]

/-- Witness for the amended C2: in the scenario `envC2` applied to the
initial state (price never fetched), the failing price source retains
its prior absence. -/
theorem C2_witness :
    AllSettled.priceOk envC2 = false ∧
    ((AllSettled.fetchBitcoinData envC2 AllSettled.initialState).1).bitcoinPrice =
      AllSettled.initialState.bitcoinPrice :=
  ⟨by decide,
   (C2_failure_isolation_amended envC2 AllSettled.initialState).2.2.2.2.2 (by decide) rfl⟩

/-- Scenario for C8 and the C9 witness: every source succeeds. -/
def envC8 : AllSettled.Env :=
  { tipHash := some "00000abc"
    blockDetails := fun _ => some sampleBlock
    mempool := some sampleMempool
    price := some samplePrice
    fng := some sampleFng
    stats := some sampleStats
    now := 3 }

/-- Claim C8: calling `fetchBitcoinData` twice in succession with every
source succeeding and identical upstream payloads leaves the five
snapshot states (block data, mempool stats, price, sentiment, network
stats) identical after each of the two calls. -/
theorem C8_refresh_idempotent :
    ∀ (env : AllSettled.Env) (s : AllSettled.AggState),
      AllSettled.allOk env = true →
      ((AllSettled.fetchBitcoinData env (AllSettled.fetchBitcoinData env s).1).1).blockData =
        ((AllSettled.fetchBitcoinData env s).1).blockData ∧
      ((AllSettled.fetchBitcoinData env (AllSettled.fetchBitcoinData env s).1).1).memPoolStats =
        ((AllSettled.fetchBitcoinData env s).1).memPoolStats ∧
      ((AllSettled.fetchBitcoinData env (AllSettled.fetchBitcoinData env s).1).1).bitcoinPrice =
        ((AllSettled.fetchBitcoinData env s).1).bitcoinPrice ∧
      ((AllSettled.fetchBitcoinData env (AllSettled.fetchBitcoinData env s).1).1).fearGreedIndex =
        ((AllSettled.fetchBitcoinData env s).1).fearGreedIndex ∧
      ((AllSettled.fetchBitcoinData env (AllSettled.fetchBitcoinData env s).1).1).blockchainStats =
        ((AllSettled.fetchBitcoinData env s).1).blockchainStats := by
  intro env s _
  simp only [AllSettled.fetch_spec]
  cases env.tipHash.bind env.blockDetails <;> cases env.mempool <;>
    cases env.fng <;> cases env.stats <;> simp

/-- Witness for C8: the all-success scenario `envC8` starting from the
mount state. -/
theorem C8_witness :
    AllSettled.allOk envC8 = true ∧
    ((AllSettled.fetchBitcoinData envC8
        (AllSettled.fetchBitcoinData envC8 AllSettled.initialState).1).1).blockData =
      ((AllSettled.fetchBitcoinData envC8 AllSettled.initialState).1).blockData :=
  ⟨by decide, (C8_refresh_idempotent envC8 AllSettled.initialState (by decide)).1⟩

/-- Claim C5: in both revisions, a block-details request is issued
exactly for the hash delivered by a successful chain-tip fetch (so none
is issued when the chain-tip fetch fails), and its URL is built from
the chain-tip response body. -/
theorem C5_block_details_follows_tip :
    (∀ (env : AllSettled.Env) (s : AllSettled.AggState),
      blockDetailsHashes (AllSettled.fetchBitcoinData env s).2 = env.tipHash.toList) ∧
    (∀ (env : Sequential.Env) (s : Sequential.SeqState),
      blockDetailsHashes (Sequential.fetchBitcoinData env s).2 = env.tipHash.toList) ∧
    (∀ h : String,
      (Request.blockDetails h).url = "https://mempool.space/api/block/" ++ h) := by
  refine ⟨?_, ?_, fun h => rfl⟩
  · intro env s
    obtain ⟨tip, details, mp, pr, fg, st, now⟩ := env
    cases tip with
    | none => cases mp <;> cases pr <;> cases fg <;> cases st <;> rfl
    | some h =>
        cases hd : details h <;> cases mp <;> cases pr <;> cases fg <;> cases st <;>
          simp [AllSettled.fetchBitcoinData, AllSettled.runBlock, AllSettled.runMempool,
            AllSettled.runPrice, AllSettled.runFng, AllSettled.runStats,
            blockDetailsHashes, Option.toList, hd]
  · intro env s
    obtain ⟨tip, details, mp, pr, now⟩ := env
    cases tip with
    | none => rfl
    | some h =>
        cases hd : details h <;> cases mp <;> cases pr <;>
          simp [Sequential.fetchBitcoinData, blockDetailsHashes, Option.toList, hd]

/-- A mount-like state for the sequential revision. -/
def seqStateC9 : Sequential.SeqState :=
  { blockData := none, memPoolStats := none, bitcoinPrice := none,
    loading := true, lastUpdated := none }

/-- Scenario for the C9 counterexample: the sequential revision's
chain-tip fetch fails. -/
def seqEnvC9fail : Sequential.Env :=
  { tipHash := none
    blockDetails := fun _ => none
    mempool := none
    price := none
    now := 0 }

/-- Counterexample to C9 as stated: in the sequential revision, a
refresh in which a source fails updates the "last updated" timestamp
zero times, not exactly once. -/
theorem C9_counterexample :
    setLastUpdatedCount (Sequential.fetchBitcoinData seqEnvC9fail seqStateC9).2 = 0 ∧
    (0 : ℕ) ≠ 1 :=
  ⟨rfl, by decide⟩

/-- Amended C9: in the allSettled revision, every refresh updates the
timestamp exactly once, as the final action after the whole batch has
settled, regardless of per-source failures; in the sequential revision
the timestamp is updated exactly once when every fetch succeeds (again
after all requests) and zero times when any fetch fails. -/
theorem C9_lastUpdated_amended :
    (∀ (env : AllSettled.Env) (s : AllSettled.AggState),
      setLastUpdatedCount (AllSettled.fetchBitcoinData env s).2 = 1 ∧
      ((AllSettled.fetchBitcoinData env s).2).getLast? =
        some (Event.setLastUpdated env.now)) ∧
    (∀ (env : Sequential.Env) (s : Sequential.SeqState),
      setLastUpdatedCount (Sequential.fetchBitcoinData env s).2 =
        if Sequential.seqAllOk env = true then 1 else 0) ∧
    (∀ (env : Sequential.Env) (s : Sequential.SeqState),
      Sequential.seqAllOk env = true →
      ((Sequential.fetchBitcoinData env s).2).getLast? =
        some (Event.setLastUpdated env.now)) := by
  refine ⟨?_, ?_, ?_⟩
  · intro env s
    obtain ⟨tip, details, mp, pr, fg, st, now⟩ := env
    cases tip with
    | none => cases mp <;> cases pr <;> cases fg <;> cases st <;> exact ⟨rfl, rfl⟩
    | some h =>
        cases hd : details h <;> cases mp <;> cases pr <;> cases fg <;> cases st <;>
          (simp only [AllSettled.fetchBitcoinData, AllSettled.runBlock,
            AllSettled.runMempool, AllSettled.runPrice, AllSettled.runFng,
            AllSettled.runStats, hd]; exact ⟨rfl, rfl⟩)
  · intro env s
    obtain ⟨tip, details, mp, pr, now⟩ := env
    cases tip with
    | none => rfl
    | some h =>
        cases hd : details h <;> cases mp <;> cases pr <;>
          simp [Sequential.fetchBitcoinData, Sequential.seqAllOk, setLastUpdatedCount, hd]
  · intro env s hok
    obtain ⟨tip, details, mp, pr, now⟩ := env
    cases tip with
    | none => simp [Sequential.seqAllOk] at hok
    | some h =>
        cases hd : details h with
        | none => simp [Sequential.seqAllOk, hd] at hok
        | some bd =>
            cases mp with
            | none => simp [Sequential.seqAllOk, hd] at hok
            | some mpv =>
                cases pr with
                | none => simp [Sequential.seqAllOk, hd] at hok
                | some prv => simp only [Sequential.fetchBitcoinData, hd]; rfl

/-- Scenario for the C9 witness: all four sequential fetches succeed. -/
def seqEnvC9ok : Sequential.Env :=
  { tipHash := some "00000abc"
    blockDetails := fun _ => some sampleBlock
    mempool := some sampleMempool
    price := some samplePrice
    now := 42 }

/-- Witness for the amended C9: the all-success sequential scenario,
where the timestamp update is the final event. -/
theorem C9_witness :
    Sequential.seqAllOk seqEnvC9ok = true ∧
    ((Sequential.fetchBitcoinData seqEnvC9ok seqStateC9).2).getLast? =
      some (Event.setLastUpdated seqEnvC9ok.now) :=
  ⟨by decide, C9_lastUpdated_amended.2.2 seqEnvC9ok seqStateC9 (by decide)⟩

/-- JavaScript `Math.round` lands within a half of its argument. -/
theorem abs_jsRound_sub_le (x : ℚ) : |((jsRound x : ℤ) : ℚ) - x| ≤ 1 / 2 := by
  unfold jsRound
  rw [abs_le]
  constructor
  · have h := Int.lt_floor_add_one (x + 1 / 2)
    push_cast at h ⊢
    linarith
  · have h := Int.floor_le (x + 1 / 2)
    push_cast at h ⊢
    linarith

/-- Counterexample to C3 as stated: at `b = 1024 ^ 4` (one tebibyte)
the computed index 4 runs past the unit table, so the rendered unit is
JavaScript's `"undefined"`, not the top unit GB. -/
theorem C3_counterexample :
    formatBytes 1099511627776 = BytesRendering.scaled 1 "undefined" ∧
    "undefined" ∉ sizes := by
  have hlog : Nat.log 1024 1099511627776 = 4 :=
    Nat.log_eq_of_pow_le_of_lt_pow (by norm_num) (by norm_num)
  have hfloor : jsRound (100 : ℚ) = 100 := by
    unfold jsRound
    rw [Int.floor_eq_iff]
    norm_num
  refine ⟨?_, by decide⟩
  rw [formatBytes, if_neg (by norm_num)]
  simp only [hlog]
  norm_num [sizes, hfloor]

/-- Amended C3: for `0 < b < 1024 ^ 4` the computed index
`k = Nat.log 1024 b` stays inside the unit table and satisfies
`1 ≤ b / 1024 ^ k < 1024`; the rendered value is the scaled value
rounded to 2 decimal places (a multiple of 1/100 within 1/200 of the
exact scaled value) followed by the selected unit name; and
`formatBytes 0` is the literal `'0 Bytes'`.  For `b ≥ 1024 ^ 4` the
index runs past the table and the unit renders as `"undefined"` (see
the counterexample), so the GB tier does not cover those values. -/
theorem C3_formatBytes_amended :
    formatBytes 0 = BytesRendering.zeroBytes ∧
    (∀ b : ℕ, 0 < b → b < 1024 ^ 4 →
      Nat.log 1024 b < sizes.length ∧
      (1 : ℚ) ≤ (b : ℚ) / 1024 ^ Nat.log 1024 b ∧
      (b : ℚ) / 1024 ^ Nat.log 1024 b < 1024 ∧
      formatBytes b = BytesRendering.scaled
        (((jsRound ((b : ℚ) / 1024 ^ Nat.log 1024 b * 100) : ℤ) : ℚ) / 100)
        (sizes.getD (Nat.log 1024 b) "undefined") ∧
      sizes.getD (Nat.log 1024 b) "undefined" ∈ sizes ∧
      |(((jsRound ((b : ℚ) / 1024 ^ Nat.log 1024 b * 100) : ℤ) : ℚ) / 100) -
        (b : ℚ) / 1024 ^ Nat.log 1024 b| ≤ 1 / 200) := by
  refine ⟨rfl, ?_⟩
  intro b hb hub
  have hk4 : Nat.log 1024 b < 4 := Nat.log_lt_of_lt_pow hb.ne' hub
  have hlow : 1024 ^ Nat.log 1024 b ≤ b := Nat.pow_log_le_self 1024 hb.ne'
  have hhigh : b < 1024 ^ (Nat.log 1024 b + 1) :=
    Nat.lt_pow_succ_log_self (by norm_num) b
  have hpos : (0 : ℚ) < 1024 ^ Nat.log 1024 b := by positivity
  refine ⟨hk4, ?_, ?_, ?_, ?_, ?_⟩
  · rw [le_div_iff hpos, one_mul]
    exact_mod_cast hlow
  · rw [div_lt_iff hpos, ← pow_succ']
    exact_mod_cast hhigh
  · rw [formatBytes, if_neg hb.ne']
  · have h4 := hk4
    generalize Nat.log 1024 b = k at h4 ⊢
    interval_cases k <;> decide
  · have h := abs_jsRound_sub_le ((b : ℚ) / 1024 ^ Nat.log 1024 b * 100)
    have heq : (((jsRound ((b : ℚ) / 1024 ^ Nat.log 1024 b * 100) : ℤ) : ℚ) / 100) -
        (b : ℚ) / 1024 ^ Nat.log 1024 b =
        (((jsRound ((b : ℚ) / 1024 ^ Nat.log 1024 b * 100) : ℤ) : ℚ) -
          (b : ℚ) / 1024 ^ Nat.log 1024 b * 100) / 100 := by
      ring
    rw [heq, abs_div, abs_of_pos (by norm_num : (0 : ℚ) < 100)]
    calc |((jsRound ((b : ℚ) / 1024 ^ Nat.log 1024 b * 100) : ℤ) : ℚ) -
            (b : ℚ) / 1024 ^ Nat.log 1024 b * 100| / 100
        ≤ (1 / 2) / 100 := by
          exact (div_le_div_right (by norm_num)).mpr h
      _ = 1 / 200 := by norm_num

/-- Witness for the amended C3: the conclusion instantiated at
`b = 2048` (which scales to 2 KB). -/
theorem C3_witness :
    Nat.log 1024 2048 < sizes.length ∧
    (1 : ℚ) ≤ (2048 : ℚ) / 1024 ^ Nat.log 1024 2048 ∧
    (2048 : ℚ) / 1024 ^ Nat.log 1024 2048 < 1024 ∧
    formatBytes 2048 = BytesRendering.scaled
      (((jsRound ((2048 : ℚ) / 1024 ^ Nat.log 1024 2048 * 100) : ℤ) : ℚ) / 100)
      (sizes.getD (Nat.log 1024 2048) "undefined") ∧
    sizes.getD (Nat.log 1024 2048) "undefined" ∈ sizes ∧
    |(((jsRound ((2048 : ℚ) / 1024 ^ Nat.log 1024 2048 * 100) : ℤ) : ℚ) / 100) -
      (2048 : ℚ) / 1024 ^ Nat.log 1024 2048| ≤ 1 / 200 :=
  C3_formatBytes_amended.2 2048 (by norm_num) (by norm_num)
